import Mathlib

/-!
Verification of the tile viewport and cache manager implemented in
`website/public/app.js` of the Cosmic Zoom repository.

The JavaScript module keeps its state in free-standing variables
(`currentProduct`, `zoom`, `pan`, `isDragging`, `dragStart`, `tileImages`,
`loadingTiles`) plus the canvas dimensions, and mutates it from event
handlers (`setZoom`, `resetView`, `handleMouseDown` / `handleMouseMove` /
`handleMouseUp`, `handleProductChange`, `loadProducts`) and from the
asynchronous tile loader `loadVisibleTiles`.

This file embeds that program shallowly:

* JavaScript numbers are modelled as rationals (pixel coordinates and pan
  offsets are exact dyadic values in every scenario considered here, so ℚ
  contains all values that actually occur);
* the `Map` of decoded tiles and the `Set` of in-flight keys are modelled
  as lists with the corresponding `has` / `set` / `delete` / `clear`
  operations;
* each event handler becomes a pure state-transition function translated
  line by line from the source;
* the asynchronous fetches of `loadVisibleTiles` are modelled by a list of
  outstanding requests (`pending`) together with two transition kinds: the
  synchronous prefix of a loop iteration, which checks the cache guard and
  marks the key in flight, and the completion of one outstanding request
  with an environment-chosen outcome.  In the source the guard check and
  the `loadingTiles.add` happen with no `await` between them, and a
  successful completion performs `tileImages.set` and
  `loadingTiles.delete` with no `await` between them, so each of the two
  transitions is atomic with respect to the JavaScript event loop.
  The visible list a running pass iterates over may have been computed
  before the latest state change, so the issue transition only requires
  the cache guard and not membership in the current visible set; this
  over-approximates the set of reachable states, and the concrete traces
  below only ever issue keys that are visible at issue time.
-/

namespace CosmicZoom

/-- Opaque decoded-image handle: the `Image` objects created by
`loadVisibleTiles` are stored and drawn but never inspected, so a bare
token suffices. -/
abbrev Img := ℕ

/-- Design constant `const TILE_SIZE = 256` (app.js). -/
def TILE_SIZE : ℚ := 256

/-- Two-dimensional pixel vector, used for `pan`, `dragStart` and mouse
client coordinates (all of which are plain `x`/`y` records in the
source). -/
structure V2 where
  x : ℚ
  y : ℚ
deriving DecidableEq, Repr

/-- Tile coordinate as produced by `getVisibleTiles`: the source pushes
objects `row, col, zoom` and keys the cache by the string
`zoom + "-" + row + "-" + col`, which is in bijection with this triple for
the values the program produces. -/
structure TileKey where
  zoom : ℕ
  row : ℤ
  col : ℤ
deriving DecidableEq, Repr

/-- A product record as served by the backend and stored in
`currentProduct` (only `id` and `max_zoom` are read by the viewport
logic). -/
structure Product where
  id : String
  name : String
  description : String
  max_zoom : ℕ
  cached_tiles : ℕ
deriving DecidableEq, Repr

/-- One outstanding tile request: the fetch started inside
`loadVisibleTiles` captures the key (hence the zoom, row, col at issue
time) and the product id used to build the URL. -/
structure PendingFetch where
  key : TileKey
  productId : String
deriving DecidableEq, Repr

/-- Per-tile pixel extent at a zoom level:
`const tileScale = TILE_SIZE * Math.pow(2, zoom)` (used identically in
`getVisibleTiles` and in `render`). -/
def tileScale (zoom : ℕ) : ℚ := TILE_SIZE * 2 ^ zoom

/-- The integer range `a, a+1, ..., b` traversed by a JavaScript loop
`for (let i = a; i <= b; i++)`; empty when `b < a`. -/
def loopRange (a b : ℤ) : List ℤ :=
  (List.range (b + 1 - a).toNat).map (fun (i : ℕ) => a + (i : ℤ))

/-- Embedding of `getVisibleTiles` (app.js lines 205-223), as a function of the state
components it reads: current zoom, pan, and canvas width/height.  The
source returns `[]` when no product is selected; that early return is
modelled in `visibleOf` below. -/
def getVisibleTiles (zoom : ℕ) (pan : V2) (w h : ℚ) : List TileKey :=
  let ts : ℚ := tileScale zoom
  let tilesInView : ℤ := 2 ^ zoom
  let startCol : ℤ := max 0 ⌊(-pan.x) / ts⌋
  let endCol : ℤ := min (tilesInView - 1) ⌈(w - pan.x) / ts⌉
  let startRow : ℤ := max 0 ⌊(-pan.y) / ts⌋
  let endRow : ℤ := min (tilesInView - 1) ⌈(h - pan.y) / ts⌉
  (loopRange startRow endRow).flatMap fun row =>
    (loopRange startCol endCol).map fun col => ⟨zoom, row, col⟩

/-- Screen rectangle of a tile as computed by `render` (app.js lines
280-291): `x = col * tileScale + pan.x`, `y = row * tileScale + pan.y`,
drawn with width and height `tileScale`. -/
structure ScreenRect where
  x : ℚ
  y : ℚ
  size : ℚ
deriving DecidableEq, Repr

/-- The rectangle at which `render` draws a tile key, at the tile scale of
the zoom level of the key itself (in the source the rendered keys always carry the
current zoom). -/
def tileScreenRect (k : TileKey) (pan : V2) : ScreenRect :=
  ⟨(k.col : ℚ) * tileScale k.zoom + pan.x,
   (k.row : ℚ) * tileScale k.zoom + pan.y,
   tileScale k.zoom⟩

/-- Operation `tileImages.has(key)` on the association-list model of the `Map`. -/
def mapHas (m : List (TileKey × Img)) (k : TileKey) : Bool :=
  m.any fun e => decide (e.1 = k)

/-- Operation `tileImages.set(key, img)`: replace the value at an existing key in
place, otherwise append the new binding (JavaScript `Map` insertion
order). -/
def mapSet (m : List (TileKey × Img)) (k : TileKey) (v : Img) :
    List (TileKey × Img) :=
  if mapHas m k then m.map (fun e => if e.1 = k then (e.1, v) else e)
  else m ++ [(k, v)]

/-- Operation `loadingTiles.has(key)` on the list model of the `Set`. -/
def setHas (l : List TileKey) (k : TileKey) : Bool :=
  decide (k ∈ l)

/-- Operation `loadingTiles.add(key)`: idempotent insertion at the end. -/
def setAdd (l : List TileKey) (k : TileKey) : List TileKey :=
  if k ∈ l then l else l ++ [k]

/-- Operation `loadingTiles.delete(key)`: remove the key (the list never holds
duplicates, so removing every occurrence coincides with `Set.delete`). -/
def setDelete (l : List TileKey) (k : TileKey) : List TileKey :=
  l.filter fun x => decide (x ≠ k)

/-- The free-standing state of the module (app.js lines 6-12) together
with the canvas dimensions read by the handlers and, for the asynchronous
part, the list of outstanding tile requests. -/
structure ViewerState where
  currentProduct : Option Product
  zoom : ℕ
  pan : V2
  isDragging : Bool
  dragStart : V2
  tileImages : List (TileKey × Img)
  loadingTiles : List TileKey
  pending : List PendingFetch
  w : ℚ
  h : ℚ
deriving DecidableEq, Repr

/-- The module-level initial values (app.js lines 6-12), with the canvas
size supplied by the environment. -/
def init (w h : ℚ) : ViewerState :=
  { currentProduct := none
    zoom := 1
    pan := ⟨0, 0⟩
    isDragging := false
    dragStart := ⟨0, 0⟩
    tileImages := []
    loadingTiles := []
    pending := []
    w := w
    h := h }

/-- The visible list computed at the start of `loadVisibleTiles` and of
each `render` pass: empty when no product is selected (the early
`return`), otherwise `getVisibleTiles` on the current state. -/
def visibleOf (s : ViewerState) : List TileKey :=
  match s.currentProduct with
  | none => []
  | some _ => getVisibleTiles s.zoom s.pan s.w s.h

/-- The guard of `loadVisibleTiles` (app.js line 234):
`!tileImages.has(key) && !loadingTiles.has(key)`. -/
def shouldFetch (s : ViewerState) (k : TileKey) : Bool :=
  !mapHas s.tileImages k && !setHas s.loadingTiles k

/-- Embedding of `clearTileCache` (app.js lines 148-151): clears both the image map
and the in-flight set. -/
def clearTileCache (s : ViewerState) : ViewerState :=
  { s with tileImages := [], loadingTiles := [] }

/-- Embedding of `resetView` (app.js lines 121-125): zoom back to 1 and pan to
`(canvas.width / 2 - TILE_SIZE / 2, canvas.height / 2 - TILE_SIZE / 2)`.
It does not touch `tileImages` or `loadingTiles`. -/
def resetView (s : ViewerState) : ViewerState :=
  { s with zoom := 1
           pan := ⟨s.w / 2 - TILE_SIZE / 2, s.h / 2 - TILE_SIZE / 2⟩ }

/-- The clamp `Math.max(0, Math.min(currentProduct.max_zoom, newZoom))`
of app.js line 131, as a natural number. -/
def clampZoom (p : Product) (target : ℤ) : ℕ :=
  (min (p.max_zoom : ℤ) target).toNat

/-- Embedding of `setZoom` (app.js lines 127-146).  Early return when no product is
selected; otherwise the zoom is clamped, and if it changed the pan is
re-anchored at the canvas center with `scale = 2^(zoom - oldZoom)` and
`clearTileCache()` runs.  The `loadVisibleTiles()` call that follows is
modelled by subsequent `Step.issue` transitions. -/
def setZoom (target : ℤ) (s : ViewerState) : ViewerState :=
  match s.currentProduct with
  | none => s
  | some p =>
      let newZoom := clampZoom p target
      if newZoom = s.zoom then { s with zoom := newZoom }
      else
        let centerX := s.w / 2
        let centerY := s.h / 2
        let scale : ℚ := 2 ^ ((newZoom : ℤ) - (s.zoom : ℤ))
        { s with
            zoom := newZoom
            pan := ⟨centerX - (centerX - s.pan.x) * scale,
                    centerY - (centerY - s.pan.y) * scale⟩
            tileImages := []
            loadingTiles := [] }

/-- Embedding of `handleMouseDown` (app.js lines 154-161): starts a drag session
regardless of whether a product is selected. -/
def handleMouseDown (e : V2) (s : ViewerState) : ViewerState :=
  { s with isDragging := true
           dragStart := ⟨e.x - s.pan.x, e.y - s.pan.y⟩ }

/-- Embedding of `handleMouseMove` (app.js lines 163-173): while dragging, the pan
follows the pointer; there is no product check and no cache effect. -/
def handleMouseMove (e : V2) (s : ViewerState) : ViewerState :=
  if s.isDragging then
    { s with pan := ⟨e.x - s.dragStart.x, e.y - s.dragStart.y⟩ }
  else s

/-- Embedding of `handleMouseUp` (app.js lines 175-178). -/
def handleMouseUp (s : ViewerState) : ViewerState :=
  { s with isDragging := false }

/-- Embedding of `handleProductChange` (app.js lines 98-107): store the selected
product, then `resetView()` and `clearTileCache()` (the trailing
`loadVisibleTiles()` is modelled by subsequent `Step.issue`
transitions). -/
def handleProductChange (p : Product) (s : ViewerState) : ViewerState :=
  clearTileCache (resetView { s with currentProduct := some p })

/-- Completion of `loadProducts` (app.js lines 66-96) with the product
list returned by the backend: an empty list (or a transport error) leaves
the state unchanged, otherwise the first product becomes current and
`resetView()` runs — with no cache clear. -/
def loadProductsDone (ps : List Product) (s : ViewerState) : ViewerState :=
  match ps with
  | [] => s
  | p :: _ => resetView { s with currentProduct := some p }

/-- The synchronous prefix of one `loadVisibleTiles` loop iteration that
passes the guard (app.js lines 234-236): `loadingTiles.add(key)` and the
start of the network request. -/
def markInFlight (k : TileKey) (pid : String) (s : ViewerState) :
    ViewerState :=
  { s with loadingTiles := setAdd s.loadingTiles k
           pending := s.pending ++ [⟨k, pid⟩] }

/-- Verdict of the environment on one tile request: `response.ok` with a
decoded image, an HTTP error page such as 404 (`response.ok` false), a
thrown network error, or an image decode error (`img.onerror`). -/
inductive FetchOutcome where
  | success (img : Img)
  | notFound
  | transportError
  | decodeError
deriving DecidableEq, Repr

/-- Completion of one outstanding request (app.js lines 238-262).  On
success the image is stored under the key captured at issue time —
unconditionally, with no comparison against the current zoom — and the
`finally` block removes the key from `loadingTiles`.  The `else` branch
(HTTP error), the `catch` for a network error and the `catch` for a
decode error all run only `console.error` and the same `finally`
block. -/
def completeFetch (pf : PendingFetch) (o : FetchOutcome) (s : ViewerState) :
    ViewerState :=
  match o with
  | .success img =>
      { s with tileImages := mapSet s.tileImages pf.key img
               loadingTiles := setDelete s.loadingTiles pf.key
               pending := s.pending.erase pf }
  | .notFound =>
      { s with loadingTiles := setDelete s.loadingTiles pf.key
               pending := s.pending.erase pf }
  | .transportError =>
      { s with loadingTiles := setDelete s.loadingTiles pf.key
               pending := s.pending.erase pf }
  | .decodeError =>
      { s with loadingTiles := setDelete s.loadingTiles pf.key
               pending := s.pending.erase pf }

/-- One atomic transition of the module with respect to the JavaScript
event loop: an event handler runs to completion (none of them suspends),
a `loadVisibleTiles` iteration passes the guard and marks its key in
flight, or one outstanding request completes.  The zoom buttons, the
wheel handler and the touch handlers all delegate to `setZoom` /
`handleMouseDown` / `handleMouseMove` / `handleMouseUp` and are covered
by the corresponding constructors. -/
inductive Step : ViewerState → ViewerState → Prop where
  | selectProduct (s : ViewerState) (p : Product) :
      Step s (handleProductChange p s)
  | productsLoaded (s : ViewerState) (ps : List Product) :
      Step s (loadProductsDone ps s)
  | mouseDown (s : ViewerState) (e : V2) : Step s (handleMouseDown e s)
  | mouseMove (s : ViewerState) (e : V2) : Step s (handleMouseMove e s)
  | mouseUp (s : ViewerState) : Step s (handleMouseUp s)
  | zoomTo (s : ViewerState) (t : ℤ) : Step s (setZoom t s)
  | reset (s : ViewerState) : Step s (resetView s)
  | resize (s : ViewerState) (w h : ℚ) : Step s { s with w := w, h := h }
  | issue (s : ViewerState) (k : TileKey) (p : Product) :
      s.currentProduct = some p → shouldFetch s k = true →
      Step s (markInFlight k p.id s)
  | complete (s : ViewerState) (pf : PendingFetch) (o : FetchOutcome) :
      pf ∈ s.pending → Step s (completeFetch pf o s)

/-- States reachable from a given state by event-loop transitions. -/
def Reachable (s t : ViewerState) : Prop :=
  Relation.ReflTransGen Step s t

/-! ### Concrete demonstration data -/

/-- A concrete product as served by the backend. -/
def pMoon : Product := ⟨"moon", "Moon", "Lunar LROC mosaic", 3, 0⟩

/-- A baseline state: product selected, zoom 1, pan at the origin, canvas
1024×768 (the viewport used by the scenarios in the specification). -/
def sBase : ViewerState :=
  { currentProduct := some pMoon
    zoom := 1
    pan := ⟨0, 0⟩
    isDragging := false
    dragStart := ⟨0, 0⟩
    tileImages := []
    loadingTiles := []
    pending := []
    w := 1024
    h := 768 }

/-! ### A concrete execution trace

The states below replay a user session on a 1024×768 canvas: select the
product, let the coordinator start fetching tile (1,0,0), zoom in to 2
(which clears the cache and in-flight set but cannot cancel the request
already on the wire), and from there either let the stale request land
(`sStale`), or zoom back out to 1 and let a fresh pass re-issue the same
key while the first request is still outstanding (`sInfl1b`). -/

def s0 : ViewerState := init 1024 768

def kZ1 : TileKey := ⟨1, 0, 0⟩

def kZ2 : TileKey := ⟨2, 0, 0⟩

/-- After `handleProductChange pMoon`: `resetView` puts the pan at
`(1024/2 - 128, 768/2 - 128) = (384, 256)`. -/
def sSel : ViewerState :=
  { currentProduct := some pMoon
    zoom := 1
    pan := ⟨384, 256⟩
    isDragging := false
    dragStart := ⟨0, 0⟩
    tileImages := []
    loadingTiles := []
    pending := []
    w := 1024
    h := 768 }

/-- The coordinator pass marks tile (1,0,0) in flight. -/
def sInfl1 : ViewerState :=
  { sSel with loadingTiles := [kZ1], pending := [⟨kZ1, "moon"⟩] }

/-- After `setZoom 2` from `sInfl1`: pan re-anchored to (256, 128), cache
and in-flight set cleared — but the request for (1,0,0) is still
outstanding. -/
def sMid : ViewerState :=
  { currentProduct := some pMoon
    zoom := 2
    pan := ⟨256, 128⟩
    isDragging := false
    dragStart := ⟨0, 0⟩
    tileImages := []
    loadingTiles := []
    pending := [⟨kZ1, "moon"⟩]
    w := 1024
    h := 768 }

/-- The outstanding request for (1,0,0) resolves successfully after the
zoom change: the image is stored under its stale key. -/
def sStale : ViewerState :=
  { sMid with tileImages := [(kZ1, 7)], loadingTiles := [], pending := [] }

/-- After `setZoom 1` from `sMid`: back at zoom 1 with pan (384, 256);
the request for (1,0,0) is still outstanding, but `loadingTiles` was
cleared twice, so the coordinator has forgotten about it. -/
def sBack : ViewerState :=
  { sMid with zoom := 1, pan := ⟨384, 256⟩, tileImages := [], loadingTiles := [] }

/-- A fresh coordinator pass at `sBack` re-issues tile (1,0,0): two
requests for the same (product, key) are now outstanding. -/
def sInfl1b : ViewerState :=
  { sBack with loadingTiles := [kZ1], pending := [⟨kZ1, "moon"⟩, ⟨kZ1, "moon"⟩] }

/-- After `setZoom 2` directly from `sSel` (no request outstanding). -/
def sZoomed2 : ViewerState :=
  { currentProduct := some pMoon
    zoom := 2
    pan := ⟨256, 128⟩
    isDragging := false
    dragStart := ⟨0, 0⟩
    tileImages := []
    loadingTiles := []
    pending := []
    w := 1024
    h := 768 }

/-- The coordinator marks tile (2,0,0) in flight at zoom 2. -/
def sInfl2 : ViewerState :=
  { sZoomed2 with loadingTiles := [kZ2], pending := [⟨kZ2, "moon"⟩] }

/-- Tile (2,0,0) loads successfully: one cached entry at zoom 2. -/
def sLoaded : ViewerState :=
  { sZoomed2 with tileImages := [(kZ2, 5)] }

/-- The invariant: no key is both in the image map and in the in-flight
set. -/
def Inv (s : ViewerState) : Prop :=
  ∀ k : TileKey,
    ¬(mapHas s.tileImages k = true ∧ setHas s.loadingTiles k = true)


/-- A state in which the request for tile (3,2,5) — the notFound
scenario of the specification — is in flight. -/
def sC8 : ViewerState :=
  { currentProduct := some pMoon
    zoom := 3
    pan := ⟨0, 0⟩
    isDragging := false
    dragStart := ⟨0, 0⟩
    tileImages := []
    loadingTiles := [⟨3, 2, 5⟩]
    pending := [⟨⟨3, 2, 5⟩, "moon"⟩]
    w := 1024
    h := 768 }


/-! ### Basic lemmas about the embedded operations -/

theorem mem_loopRange {a b x : ℤ} (h : x ∈ loopRange a b) :
    a ≤ x ∧ x ≤ b := by
  unfold loopRange at h
  obtain ⟨i, hi, hx⟩ := List.mem_map.mp h
  rw [List.mem_range] at hi
  subst hx
  omega

/-- Evaluating a ceiling through the corresponding floor (used because the
numeric normalisation procedure computes floors of rational literals
directly). -/
theorem ceil_eval {q : ℚ} {n : ℤ} (h : ⌊-q⌋ = -n) : ⌈q⌉ = n := by
  rw [← neg_neg ⌈q⌉, ← Int.floor_neg, h, neg_neg]

/-- Evaluation scheme for `getVisibleTiles`: once the four floors and
ceilings are known, the visible list is the corresponding loop
product. -/
theorem getVisibleTiles_eval (zoom : ℕ) (pan : V2) (w h : ℚ)
    (a b c d : ℤ)
    (h1 : ⌊(-pan.y) / tileScale zoom⌋ = a)
    (h2 : ⌈(h - pan.y) / tileScale zoom⌉ = b)
    (h3 : ⌊(-pan.x) / tileScale zoom⌋ = c)
    (h4 : ⌈(w - pan.x) / tileScale zoom⌉ = d) :
    getVisibleTiles zoom pan w h =
      (loopRange (max 0 a) (min ((2 : ℤ) ^ zoom - 1) b)).flatMap fun row =>
        (loopRange (max 0 c) (min ((2 : ℤ) ^ zoom - 1) d)).map fun col =>
          ⟨zoom, row, col⟩ := by
  simp only [getVisibleTiles]
  rw [h1, h2, h3, h4]

theorem zoom_of_mem_getVisibleTiles {zoom : ℕ} {pan : V2} {w h : ℚ}
    {k : TileKey} (hk : k ∈ getVisibleTiles zoom pan w h) : k.zoom = zoom := by
  simp only [getVisibleTiles] at hk
  obtain ⟨row, hrow, hk⟩ := List.mem_flatMap.mp hk
  obtain ⟨col, hcol, hk⟩ := List.mem_map.mp hk
  subst hk
  rfl

/-- Every key the program ever looks up or requests comes from a
visibility pass over the current state, and such keys carry the current
zoom. -/
theorem mem_visibleOf_zoom {s : ViewerState} {k : TileKey}
    (h : k ∈ visibleOf s) : k.zoom = s.zoom := by
  cases hcp : s.currentProduct with
  | none =>
      simp only [visibleOf, hcp] at h
      exact absurd h (List.not_mem_nil k)
  | some p =>
      simp only [visibleOf, hcp] at h
      exact zoom_of_mem_getVisibleTiles h

theorem setZoom_none {s : ViewerState} (hp : s.currentProduct = none)
    (t : ℤ) : setZoom t s = s := by
  simp only [setZoom, hp]

theorem setZoom_eq {s : ViewerState} {p : Product}
    (hp : s.currentProduct = some p) (t : ℤ) :
    setZoom t s =
      if clampZoom p t = s.zoom then { s with zoom := clampZoom p t }
      else
        { s with
            zoom := clampZoom p t
            pan := ⟨s.w / 2 -
                      (s.w / 2 - s.pan.x) *
                        2 ^ ((clampZoom p t : ℤ) - (s.zoom : ℤ)),
                    s.h / 2 -
                      (s.h / 2 - s.pan.y) *
                        2 ^ ((clampZoom p t : ℤ) - (s.zoom : ℤ))⟩
            tileImages := []
            loadingTiles := [] } := by
  simp only [setZoom, hp]

theorem setZoom_pending (t : ℤ) (s : ViewerState) :
    (setZoom t s).pending = s.pending := by
  cases hcp : s.currentProduct with
  | none => rw [setZoom_none hcp]
  | some p => rw [setZoom_eq hcp]; split <;> rfl

theorem mapHas_eq_true {m : List (TileKey × Img)} {k : TileKey} :
    mapHas m k = true ↔ ∃ e ∈ m, e.1 = k := by
  simp [mapHas]

theorem mapHas_mapSet_self (m : List (TileKey × Img)) (k : TileKey)
    (v : Img) : mapHas (mapSet m k v) k = true := by
  unfold mapSet
  split
  · next hm =>
      obtain ⟨e, he, hek⟩ := mapHas_eq_true.mp hm
      refine mapHas_eq_true.mpr ⟨(e.1, v), List.mem_map.mpr ⟨e, he, ?_⟩, hek⟩
      rw [if_pos hek]
  · exact mapHas_eq_true.mpr ⟨(k, v), List.mem_append.mpr (Or.inr (by simp)), rfl⟩

theorem mapHas_mapSet {m : List (TileKey × Img)} {k k2 : TileKey} {v : Img}
    (h : mapHas (mapSet m k v) k2 = true) : k2 = k ∨ mapHas m k2 = true := by
  unfold mapSet at h
  split at h
  · obtain ⟨e, he, hek⟩ := mapHas_eq_true.mp h
    obtain ⟨e0, he0, rfl⟩ := List.mem_map.mp he
    by_cases h0 : e0.1 = k
    · rw [if_pos h0] at hek
      exact Or.inl (hek ▸ h0 ▸ rfl)
    · rw [if_neg h0] at hek
      exact Or.inr (mapHas_eq_true.mpr ⟨e0, he0, hek⟩)
  · obtain ⟨e, he, hek⟩ := mapHas_eq_true.mp h
    rcases List.mem_append.mp he with h1 | h2
    · exact Or.inr (mapHas_eq_true.mpr ⟨e, h1, hek⟩)
    · have he2 : e = (k, v) := by simpa using h2
      subst he2
      exact Or.inl hek.symm

theorem setHas_eq_true {l : List TileKey} {k : TileKey} :
    setHas l k = true ↔ k ∈ l := by
  simp [setHas]

theorem mem_setAdd {l : List TileKey} {k k2 : TileKey} :
    k2 ∈ setAdd l k ↔ k2 ∈ l ∨ k2 = k := by
  unfold setAdd
  split
  · next hmem =>
      constructor
      · exact Or.inl
      · rintro (h | rfl)
        · exact h
        · exact hmem
  · simp

theorem setHas_setDelete {l : List TileKey} {k k2 : TileKey}
    (h : setHas (setDelete l k) k2 = true) : k2 ∈ l ∧ k2 ≠ k := by
  have := setHas_eq_true.mp h
  simpa [setDelete, List.mem_filter] using this

theorem setHas_setDelete_self (l : List TileKey) (k : TileKey) :
    setHas (setDelete l k) k = false := by
  cases h3 : setHas (setDelete l k) k with
  | false => rfl
  | true => exact absurd rfl (setHas_setDelete h3).2

/-! ### Claim C3: bounds of the visible tile set -/

/-- Claim C3, amended.  For every zoom, pan offset and viewport size,
every key returned by `getVisibleTiles` carries the current zoom and
satisfies `0 ≤ row, col < 2 ^ zoom`.  (The further part of the claim —
that an empty viewport or a fully off-grid pan yields the empty set — is
refuted by `claim3_counterexample`: the column/row end index is a clamped
ceiling, so the loop can retain one non-intersecting row and column.) -/
theorem claim3_bounds (zoom : ℕ) (pan : V2) (w h : ℚ) (k : TileKey)
    (hk : k ∈ getVisibleTiles zoom pan w h) :
    k.zoom = zoom ∧
    0 ≤ k.row ∧ k.row < 2 ^ zoom ∧ 0 ≤ k.col ∧ k.col < 2 ^ zoom := by
  simp only [getVisibleTiles] at hk
  obtain ⟨row, hrow, hk⟩ := List.mem_flatMap.mp hk
  obtain ⟨col, hcol, hk⟩ := List.mem_map.mp hk
  subst hk
  obtain ⟨hr1, hr2⟩ := mem_loopRange hrow
  obtain ⟨hc1, hc2⟩ := mem_loopRange hcol
  have hrmin : row ≤ (2 : ℤ) ^ zoom - 1 := le_trans hr2 (min_le_left _ _)
  have hcmin : col ≤ (2 : ℤ) ^ zoom - 1 := le_trans hc2 (min_le_left _ _)
  have hr0 : (0 : ℤ) ≤ row := le_trans (le_max_left _ _) hr1
  have hc0 : (0 : ℤ) ≤ col := le_trans (le_max_left _ _) hc1
  refine ⟨rfl, ?_, ?_, ?_, ?_⟩ <;> dsimp only <;> omega

/-- Witness for `claim3_bounds`, at the scenario given in the
specification: a
1024×768 viewport at zoom 1 with pan (0,0) sees exactly the 2×2 grid, and
the key (1,0,0) in it satisfies the bounds. -/
theorem claim3_witness :
    (⟨1, 0, 0⟩ : TileKey) ∈ getVisibleTiles 1 ⟨0, 0⟩ 1024 768 ∧
    (0 ≤ (⟨1, 0, 0⟩ : TileKey).row ∧ (⟨1, 0, 0⟩ : TileKey).row < 2 ^ 1 ∧
     0 ≤ (⟨1, 0, 0⟩ : TileKey).col ∧ (⟨1, 0, 0⟩ : TileKey).col < 2 ^ 1) := by
  have hv : getVisibleTiles 1 ⟨0, 0⟩ 1024 768 =
      [⟨1, 0, 0⟩, ⟨1, 0, 1⟩, ⟨1, 1, 0⟩, ⟨1, 1, 1⟩] := by
    rw [getVisibleTiles_eval 1 ⟨0, 0⟩ 1024 768 0 2 0 2
      (by norm_num [tileScale, TILE_SIZE])
      (ceil_eval (by norm_num [tileScale, TILE_SIZE]))
      (by norm_num [tileScale, TILE_SIZE])
      (ceil_eval (by norm_num [tileScale, TILE_SIZE]))]
    decide
  have hm : (⟨1, 0, 0⟩ : TileKey) ∈ getVisibleTiles 1 ⟨0, 0⟩ 1024 768 := by
    rw [hv]; decide
  have hb := claim3_bounds 1 ⟨0, 0⟩ 1024 768 ⟨1, 0, 0⟩ hm
  exact ⟨hm, hb.2.1, hb.2.2.1, hb.2.2.2.1, hb.2.2.2.2⟩

/-- Counterexample to claim C3 as stated: the claim also asserts that an
empty viewport, or a pan that places the viewport fully off the tile
grid, yields the empty set.  With zoom 0, pan (200,200) and a 100×100
viewport the whole grid is the single tile (0,0), whose screen rectangle
starts at x = 200 ≥ 100 (and y = 200 ≥ 100) — entirely off the viewport —
yet `getVisibleTiles` still returns that tile; and a 0×0 viewport at pan
(0,0) also returns it. -/
theorem claim3_counterexample :
    getVisibleTiles 0 ⟨200, 200⟩ 100 100 = [⟨0, 0, 0⟩] ∧
    (tileScreenRect ⟨0, 0, 0⟩ ⟨200, 200⟩).x = 200 ∧
    (tileScreenRect ⟨0, 0, 0⟩ ⟨200, 200⟩).y = 200 ∧
    (100 : ℚ) ≤ 200 ∧
    getVisibleTiles 0 ⟨0, 0⟩ 0 0 = [⟨0, 0, 0⟩] := by
  refine ⟨?_, ?_, ?_, by norm_num, ?_⟩
  · rw [getVisibleTiles_eval 0 ⟨200, 200⟩ 100 100 (-1) 0 (-1) 0
      (by norm_num [tileScale, TILE_SIZE])
      (ceil_eval (by norm_num [tileScale, TILE_SIZE]))
      (by norm_num [tileScale, TILE_SIZE])
      (ceil_eval (by norm_num [tileScale, TILE_SIZE]))]
    decide
  · norm_num [tileScreenRect, tileScale, TILE_SIZE]
  · norm_num [tileScreenRect, tileScale, TILE_SIZE]
  · rw [getVisibleTiles_eval 0 ⟨0, 0⟩ 0 0 0 0 0 0
      (by norm_num [tileScale, TILE_SIZE])
      (ceil_eval (by norm_num [tileScale, TILE_SIZE]))
      (by norm_num [tileScale, TILE_SIZE])
      (ceil_eval (by norm_num [tileScale, TILE_SIZE]))]
    decide

/-! ### Claim C4: center-anchored zoom -/

/-- Claim C4, amended.  For every effective zoom change the new pan per
axis equals `center - (center - pan) * 2 ^ (newZoom - oldZoom)` with the
center at half the canvas size; the scenario 1→2 with center (512, 384)
and pan (0, 0) yields pan (-512, -384) (see `claim4_witness`).  The
further consequence in the claim — that the grid point under the viewport
center remains under the center — fails, because the rendered tile size
itself is `TILE_SIZE * 2 ^ zoom`, so screen positions of fixed grid
points scale by `4 ^ (newZoom - oldZoom)` while the anchoring formula
compensates only for `2 ^ (newZoom - oldZoom)`; see
`claim4_counterexample`. -/
theorem claim4_anchor_formula (s : ViewerState) (p : Product) (t : ℤ)
    (hp : s.currentProduct = some p) (hz : clampZoom p t ≠ s.zoom) :
    (setZoom t s).pan.x =
      s.w / 2 - (s.w / 2 - s.pan.x) * 2 ^ ((clampZoom p t : ℤ) - (s.zoom : ℤ)) ∧
    (setZoom t s).pan.y =
      s.h / 2 - (s.h / 2 - s.pan.y) * 2 ^ ((clampZoom p t : ℤ) - (s.zoom : ℤ)) := by
  rw [setZoom_eq hp, if_neg hz]
  exact ⟨rfl, rfl⟩

/-- Witness for `claim4_anchor_formula` at the specification scenario:
zoom 1→2, center (512, 384), pan (0, 0), giving pan (-512, -384). -/
theorem claim4_witness :
    clampZoom pMoon 2 ≠ sBase.zoom ∧
    (setZoom 2 sBase).pan.x =
      sBase.w / 2 -
        (sBase.w / 2 - sBase.pan.x) *
          2 ^ ((clampZoom pMoon 2 : ℤ) - (sBase.zoom : ℤ)) ∧
    (setZoom 2 sBase).pan.y =
      sBase.h / 2 -
        (sBase.h / 2 - sBase.pan.y) *
          2 ^ ((clampZoom pMoon 2 : ℤ) - (sBase.zoom : ℤ)) ∧
    (setZoom 2 sBase).pan = ⟨-512, -384⟩ := by
  have h := claim4_anchor_formula sBase pMoon 2 rfl (by decide)
  refine ⟨by decide, h.1, h.2, ?_⟩
  have hx := h.1
  have hy := h.2
  have hpan : (setZoom 2 sBase).pan =
      ⟨(setZoom 2 sBase).pan.x, (setZoom 2 sBase).pan.y⟩ := rfl
  rw [hpan, hx, hy]
  norm_num [sBase, clampZoom, pMoon, V2.mk.injEq]

/-- Counterexample to the anchoring consequence of claim C4.  The
horizontal midpoint of the map is the left edge of tile (zoom 1, col 1), i.e. of
tile (zoom 2, col 2) after the change (column 1 of 2 and column 2 of 4
are the same vertical grid line of the quad pyramid).  Before the change
that point sits at screen x = 512, exactly the viewport center; after
`setZoom 2` — which sets pan to (-512, -384) by the formula — the same
grid line is rendered at x = 1536, not 512: the point under the center
does not remain under the center. -/
theorem claim4_counterexample :
    (tileScreenRect ⟨1, 0, 1⟩ sBase.pan).x = 512 ∧
    sBase.w / 2 = 512 ∧
    (setZoom 2 sBase).pan = ⟨-512, -384⟩ ∧
    (tileScreenRect ⟨2, 0, 2⟩ (setZoom 2 sBase).pan).x = 1536 ∧
    (1536 : ℚ) ≠ 512 := by
  have hpan : (setZoom 2 sBase).pan = ⟨-512, -384⟩ := by
    rw [setZoom_eq (show sBase.currentProduct = some pMoon from rfl) 2,
      if_neg (by decide)]
    norm_num [sBase, clampZoom, pMoon, V2.mk.injEq]
  refine ⟨?_, ?_, hpan, ?_, by norm_num⟩
  · norm_num [tileScreenRect, tileScale, TILE_SIZE, sBase]
  · norm_num [sBase]
  · rw [hpan]
    norm_num [tileScreenRect, tileScale, TILE_SIZE]

/-! ### Claim C6: setZoom clamping and no-op behaviour -/

/-- Claim C6, confirmed.  With a product selected, `setZoom` always
adopts the clamp of the target to `[0, max_zoom]` (never rejects); when
the clamped target equals the current zoom the whole state is unchanged;
otherwise the pan is re-anchored by the center formula and the tile cache
and in-flight set are cleared entirely. -/
theorem claim6_setZoom (s : ViewerState) (p : Product) (t : ℤ)
    (hp : s.currentProduct = some p) :
    (setZoom t s).zoom = clampZoom p t ∧
    (clampZoom p t : ℤ) = max 0 (min (p.max_zoom : ℤ) t) ∧
    (clampZoom p t = s.zoom → setZoom t s = s) ∧
    (clampZoom p t ≠ s.zoom →
      (setZoom t s).pan.x =
        s.w / 2 -
          (s.w / 2 - s.pan.x) * 2 ^ ((clampZoom p t : ℤ) - (s.zoom : ℤ)) ∧
      (setZoom t s).pan.y =
        s.h / 2 -
          (s.h / 2 - s.pan.y) * 2 ^ ((clampZoom p t : ℤ) - (s.zoom : ℤ)) ∧
      (setZoom t s).tileImages = [] ∧
      (setZoom t s).loadingTiles = []) := by
  refine ⟨?_, ?_, ?_, ?_⟩
  · rw [setZoom_eq hp]
    split <;> rfl
  · unfold clampZoom
    omega
  · intro hc
    rw [setZoom_eq hp, if_pos hc, hc]
  · intro hc
    rw [setZoom_eq hp, if_neg hc]
    exact ⟨rfl, rfl, rfl, rfl⟩

/-- Witness for `claim6_setZoom`: a request for zoom 5 with max zoom 3 is
clamped to 3 and proceeds, clearing cache and in-flight set. -/
theorem claim6_witness :
    sBase.currentProduct = some pMoon ∧
    (setZoom 5 sBase).zoom = clampZoom pMoon 5 ∧
    (clampZoom pMoon 5 : ℤ) = max 0 (min (pMoon.max_zoom : ℤ) 5) ∧
    (setZoom 5 sBase).tileImages = [] ∧
    (setZoom 5 sBase).loadingTiles = [] := by
  have h := claim6_setZoom sBase pMoon 5 rfl
  exact ⟨rfl, h.1, h.2.1, (h.2.2.2 (by decide)).2.2.1, (h.2.2.2 (by decide)).2.2.2⟩

/-! ### Claim C9: operations with no product selected -/

/-- Claim C9, amended.  A zoom request with no product selected is a
complete no-op, and the visible list is empty so no fetch is ever issued;
but a drag is not a no-op: `handleMouseDown` and `handleMouseMove` have
no product check, so the pan and the drag-session state do change (see
`claim9_counterexample`) — only the zoom, cache, in-flight set and
outstanding requests are untouched. -/
theorem claim9_no_product (s : ViewerState) (t : ℤ) (e e2 : V2)
    (hp : s.currentProduct = none) :
    setZoom t s = s ∧
    visibleOf s = [] ∧
    (handleMouseDown e s).tileImages = s.tileImages ∧
    (handleMouseDown e s).loadingTiles = s.loadingTiles ∧
    (handleMouseDown e s).pending = s.pending ∧
    (handleMouseDown e s).zoom = s.zoom ∧
    (handleMouseDown e s).pan = s.pan ∧
    (handleMouseMove e2 s).tileImages = s.tileImages ∧
    (handleMouseMove e2 s).loadingTiles = s.loadingTiles ∧
    (handleMouseMove e2 s).pending = s.pending ∧
    (handleMouseMove e2 s).zoom = s.zoom := by
  refine ⟨setZoom_none hp t, ?_, rfl, rfl, rfl, rfl, rfl, ?_, ?_, ?_, ?_⟩
  · simp [visibleOf, hp]
  all_goals cases hd : s.isDragging <;> simp [handleMouseMove, hd]

/-- Witness for `claim9_no_product` at the initial state (no product is
selected there). -/
theorem claim9_witness :
    (init 1024 768).currentProduct = none ∧
    setZoom 2 (init 1024 768) = init 1024 768 ∧
    visibleOf (init 1024 768) = [] ∧
    (handleMouseMove ⟨50, 60⟩ (init 1024 768)).zoom =
      (init 1024 768).zoom := by
  have h := claim9_no_product (init 1024 768) 2 ⟨10, 10⟩ ⟨50, 60⟩ rfl
  exact ⟨rfl, h.1, h.2.1, h.2.2.2.2.2.2.2.2.2.2⟩

/-- Counterexample to claim C9 as stated: dragging while no product is
selected does change the pan.  From the initial state, mouse down at
(10, 10) followed by mouse move to (50, 60) moves the pan from (0, 0) to
(40, 50) even though `currentProduct` is still `none`. -/
theorem claim9_counterexample :
    (init 1024 768).currentProduct = none ∧
    (handleMouseDown ⟨10, 10⟩ (init 1024 768)).currentProduct = none ∧
    (init 1024 768).pan = ⟨0, 0⟩ ∧
    (handleMouseMove ⟨50, 60⟩ (handleMouseDown ⟨10, 10⟩ (init 1024 768))).pan
      = ⟨40, 50⟩ ∧
    (⟨40, 50⟩ : V2) ≠ ⟨0, 0⟩ := by
  refine ⟨rfl, rfl, rfl, ?_, ?_⟩
  · norm_num [handleMouseMove, handleMouseDown, init, V2.mk.injEq]
  · norm_num [V2.mk.injEq]

/-! ### Claim C10: resetView -/

/-- Claim C10, amended.  `resetView` sets the zoom to the baseline
constant 1 and the pan to
`(w / 2 - TILE_SIZE / 2, h / 2 - TILE_SIZE / 2)` — which centers a
square of side `TILE_SIZE` anchored at the grid origin (the zoom-0
tile), not the zoom-1 baseline grid, whose tiles render at size
`2 * TILE_SIZE` — and it clears neither the tile cache nor the in-flight
set (see `claim10_counterexample`). -/
theorem claim10_resetView (s : ViewerState) :
    (resetView s).zoom = 1 ∧
    (resetView s).pan = ⟨s.w / 2 - TILE_SIZE / 2, s.h / 2 - TILE_SIZE / 2⟩ ∧
    (resetView s).pan.x + tileScale 0 / 2 = s.w / 2 ∧
    (resetView s).pan.y + tileScale 0 / 2 = s.h / 2 ∧
    (resetView s).tileImages = s.tileImages ∧
    (resetView s).loadingTiles = s.loadingTiles := by
  refine ⟨rfl, rfl, ?_, ?_, rfl, rfl⟩ <;>
    simp [resetView, tileScale, TILE_SIZE]

theorem step_s0_sSel : Step s0 sSel := by
  have e : handleProductChange pMoon s0 = sSel := by
    norm_num [handleProductChange, clearTileCache, resetView, s0, init, sSel,
      TILE_SIZE, V2.mk.injEq]
  exact e ▸ Step.selectProduct s0 pMoon

theorem step_sSel_sInfl1 : Step sSel sInfl1 :=
  Step.issue sSel kZ1 pMoon rfl (by decide)

theorem step_sInfl1_sMid : Step sInfl1 sMid := by
  have e : setZoom 2 sInfl1 = sMid := by
    rw [setZoom_eq (show sInfl1.currentProduct = some pMoon from rfl) 2,
      if_neg (by decide)]
    norm_num [sInfl1, sSel, sMid, clampZoom, pMoon, V2.mk.injEq]
    decide
  exact e ▸ Step.zoomTo sInfl1 2

theorem step_sMid_sStale : Step sMid sStale :=
  Step.complete sMid ⟨kZ1, "moon"⟩ (.success 7) (by decide)

theorem step_sMid_sBack : Step sMid sBack := by
  have e : setZoom 1 sMid = sBack := by
    rw [setZoom_eq (show sMid.currentProduct = some pMoon from rfl) 1,
      if_neg (by decide)]
    norm_num [sMid, sBack, clampZoom, pMoon, V2.mk.injEq]
  exact e ▸ Step.zoomTo sMid 1

theorem step_sBack_sInfl1b : Step sBack sInfl1b :=
  Step.issue sBack kZ1 pMoon rfl (by decide)

theorem step_sSel_sZoomed2 : Step sSel sZoomed2 := by
  have e : setZoom 2 sSel = sZoomed2 := by
    rw [setZoom_eq (show sSel.currentProduct = some pMoon from rfl) 2,
      if_neg (by decide)]
    norm_num [sSel, sZoomed2, clampZoom, pMoon, V2.mk.injEq]
    decide
  exact e ▸ Step.zoomTo sSel 2

theorem step_sZoomed2_sInfl2 : Step sZoomed2 sInfl2 :=
  Step.issue sZoomed2 kZ2 pMoon rfl (by decide)

theorem step_sInfl2_sLoaded : Step sInfl2 sLoaded :=
  Step.complete sInfl2 ⟨kZ2, "moon"⟩ (.success 5) (by decide)

theorem reach_sStale : Reachable s0 sStale :=
  .head step_s0_sSel (.head step_sSel_sInfl1
    (.head step_sInfl1_sMid (.single step_sMid_sStale)))

theorem reach_sInfl1b : Reachable s0 sInfl1b :=
  .head step_s0_sSel (.head step_sSel_sInfl1
    (.head step_sInfl1_sMid (.head step_sMid_sBack
      (.single step_sBack_sInfl1b))))

theorem reach_sLoaded : Reachable s0 sLoaded :=
  .head step_s0_sSel (.head step_sSel_sZoomed2
    (.head step_sZoomed2_sInfl2 (.single step_sInfl2_sLoaded)))

/-- The 2×2 grid visible at `sSel` (zoom 1, pan (384, 256), 1024×768);
both keys issued at zoom 1 in the trace are genuinely visible. -/
theorem vis_sSel :
    visibleOf sSel = [⟨1, 0, 0⟩, ⟨1, 0, 1⟩, ⟨1, 1, 0⟩, ⟨1, 1, 1⟩] := by
  show getVisibleTiles 1 ⟨384, 256⟩ 1024 768 = _
  rw [getVisibleTiles_eval 1 ⟨384, 256⟩ 1024 768 (-1) 1 (-1) 2
    (by norm_num [tileScale, TILE_SIZE])
    (ceil_eval (by norm_num [tileScale, TILE_SIZE]))
    (by norm_num [tileScale, TILE_SIZE])
    (ceil_eval (by norm_num [tileScale, TILE_SIZE]))]
  decide

/-- State `sBack` has the same zoom, pan and canvas as `sSel`, so the same
visible set. -/
theorem vis_sBack :
    visibleOf sBack = [⟨1, 0, 0⟩, ⟨1, 0, 1⟩, ⟨1, 1, 0⟩, ⟨1, 1, 1⟩] := by
  show getVisibleTiles 1 ⟨384, 256⟩ 1024 768 = _
  rw [getVisibleTiles_eval 1 ⟨384, 256⟩ 1024 768 (-1) 1 (-1) 2
    (by norm_num [tileScale, TILE_SIZE])
    (ceil_eval (by norm_num [tileScale, TILE_SIZE]))
    (by norm_num [tileScale, TILE_SIZE])
    (ceil_eval (by norm_num [tileScale, TILE_SIZE]))]
  decide

/-- The 2×2 block visible at `sZoomed2` (zoom 2, pan (256, 128)); the key
issued at zoom 2 in the trace is genuinely visible. -/
theorem vis_sZoomed2 :
    visibleOf sZoomed2 = [⟨2, 0, 0⟩, ⟨2, 0, 1⟩, ⟨2, 1, 0⟩, ⟨2, 1, 1⟩] := by
  show getVisibleTiles 2 ⟨256, 128⟩ 1024 768 = _
  rw [getVisibleTiles_eval 2 ⟨256, 128⟩ 1024 768 (-1) 1 (-1) 1
    (by norm_num [tileScale, TILE_SIZE])
    (ceil_eval (by norm_num [tileScale, TILE_SIZE]))
    (by norm_num [tileScale, TILE_SIZE])
    (ceil_eval (by norm_num [tileScale, TILE_SIZE]))]
  decide

/-- Pressing reset in the state `sStale` restores zoom 1 with pan
(384, 256) — without clearing anything — and the visible set there again
contains the stale-cached key (1,0,0). -/
theorem vis_reset_sStale :
    visibleOf (resetView sStale) =
      [⟨1, 0, 0⟩, ⟨1, 0, 1⟩, ⟨1, 1, 0⟩, ⟨1, 1, 1⟩] := by
  have hpan : (resetView sStale).pan = ⟨384, 256⟩ := by
    norm_num [resetView, TILE_SIZE, V2.mk.injEq,
      show sStale.w = 1024 from rfl, show sStale.h = 768 from rfl]
  show getVisibleTiles 1 (resetView sStale).pan 1024 768 = _
  rw [hpan]
  rw [getVisibleTiles_eval 1 ⟨384, 256⟩ 1024 768 (-1) 1 (-1) 2
    (by norm_num [tileScale, TILE_SIZE])
    (ceil_eval (by norm_num [tileScale, TILE_SIZE]))
    (by norm_num [tileScale, TILE_SIZE])
    (ceil_eval (by norm_num [tileScale, TILE_SIZE]))]
  decide

/-! ### Claim C7: no key is simultaneously cached and in flight -/

theorem shouldFetch_eq_true {s : ViewerState} {k : TileKey}
    (h : shouldFetch s k = true) :
    mapHas s.tileImages k = false ∧ setHas s.loadingTiles k = false := by
  simp only [shouldFetch, Bool.and_eq_true, Bool.not_eq_true'] at h
  exact h

theorem inv_init (w h : ℚ) : Inv (init w h) := by
  intro k hk
  exact Bool.false_ne_true hk.1

theorem inv_step {s t : ViewerState} (hst : Step s t) (hs : Inv s) :
    Inv t := by
  cases hst with
  | selectProduct p =>
      intro k hk
      exact Bool.false_ne_true hk.1
  | productsLoaded ps =>
      cases ps with
      | nil => exact hs
      | cons p ps => exact hs
  | mouseDown e => exact hs
  | mouseMove e =>
      unfold handleMouseMove
      split
      · exact hs
      · exact hs
  | mouseUp => exact hs
  | zoomTo t2 =>
      cases hcp : s.currentProduct with
      | none => rw [setZoom_none hcp]; exact hs
      | some p =>
          rw [setZoom_eq hcp]
          split
          · exact hs
          · intro k hk
            exact Bool.false_ne_true hk.1
  | reset => exact hs
  | resize w2 h2 => exact hs
  | issue k p hp hf =>
      intro k2 hk2
      obtain ⟨h1, h2⟩ := hk2
      have h1s : mapHas s.tileImages k2 = true := h1
      have h2s : setHas (setAdd s.loadingTiles k) k2 = true := h2
      rcases mem_setAdd.mp (setHas_eq_true.mp h2s) with hmem | rfl
      · exact hs k2 ⟨h1s, setHas_eq_true.mpr hmem⟩
      · have hf1 := (shouldFetch_eq_true hf).1
        simp [h1s] at hf1
  | complete pf o hpf =>
      cases o with
      | success img =>
          intro k2 hk2
          obtain ⟨h1, h2⟩ := hk2
          have h1s : mapHas (mapSet s.tileImages pf.key img) k2 = true := h1
          have h2s : setHas (setDelete s.loadingTiles pf.key) k2 = true := h2
          have h2d := setHas_setDelete h2s
          rcases mapHas_mapSet h1s with rfl | hold
          · exact h2d.2 rfl
          · exact hs k2 ⟨hold, setHas_eq_true.mpr h2d.1⟩
      | notFound =>
          intro k2 hk2
          obtain ⟨h1, h2⟩ := hk2
          have h2s : setHas (setDelete s.loadingTiles pf.key) k2 = true := h2
          have h2d := setHas_setDelete h2s
          exact hs k2 ⟨h1, setHas_eq_true.mpr h2d.1⟩
      | transportError =>
          intro k2 hk2
          obtain ⟨h1, h2⟩ := hk2
          have h2s : setHas (setDelete s.loadingTiles pf.key) k2 = true := h2
          have h2d := setHas_setDelete h2s
          exact hs k2 ⟨h1, setHas_eq_true.mpr h2d.1⟩
      | decodeError =>
          intro k2 hk2
          obtain ⟨h1, h2⟩ := hk2
          have h2s : setHas (setDelete s.loadingTiles pf.key) k2 = true := h2
          have h2d := setHas_setDelete h2s
          exact hs k2 ⟨h1, setHas_eq_true.mpr h2d.1⟩

theorem inv_reachable {s t : ViewerState} (h : Reachable s t)
    (hs : Inv s) : Inv t := by
  induction h with
  | refl => exact hs
  | tail _ hstep ih => exact inv_step hstep ih

/-- Claim C7, confirmed.  In every state reachable from the initial one,
no tile key is simultaneously present in the in-flight set and in the
cached-image map: a successful completion stores the image and removes
the in-flight mark in the same atomic transition, and a key is only
marked in flight when it is not cached. -/
theorem claim7_cache_inflight_disjoint (w h : ℚ) (s : ViewerState)
    (hs : Reachable (init w h) s) (k : TileKey) :
    ¬(mapHas s.tileImages k = true ∧ setHas s.loadingTiles k = true) :=
  inv_reachable hs (inv_init w h) k

/-- Witness for `claim7_cache_inflight_disjoint` at the nontrivial
reachable state `sStale` and the key that state caches. -/
theorem claim7_witness :
    Reachable (init 1024 768) sStale ∧
    ¬(mapHas sStale.tileImages kZ1 = true ∧
      setHas sStale.loadingTiles kZ1 = true) :=
  ⟨reach_sStale,
   claim7_cache_inflight_disjoint 1024 768 sStale reach_sStale kZ1⟩

/-! ### Claim C8: fetch failures -/

/-- Claim C8, confirmed.  A failing fetch creates no cache entry (the
image map is untouched), removes its key from the in-flight set, is
handled identically for an HTTP error (notFound), a transport error and
a decode error, and leaves the key eligible for re-request: if the key
is not cached, the coordinator guard accepts it on the next pass over a
visible list containing it. -/
theorem claim8_fetch_failure (s : ViewerState) (pf : PendingFetch)
    (_hpf : pf ∈ s.pending) :
    (completeFetch pf .notFound s).tileImages = s.tileImages ∧
    setHas (completeFetch pf .notFound s).loadingTiles pf.key = false ∧
    completeFetch pf .notFound s = completeFetch pf .transportError s ∧
    completeFetch pf .notFound s = completeFetch pf .decodeError s ∧
    (mapHas s.tileImages pf.key = false →
      shouldFetch (completeFetch pf .notFound s) pf.key = true) := by
  refine ⟨rfl, setHas_setDelete_self _ _, rfl, rfl, ?_⟩
  intro hm
  simp [shouldFetch, completeFetch, hm, setHas_setDelete_self]

/-- Witness for `claim8_fetch_failure`: the notFound completion for
(3,2,5) leaves the cache without that entry and the key fetchable
again. -/
theorem claim8_witness :
    (⟨⟨3, 2, 5⟩, "moon"⟩ : PendingFetch) ∈ sC8.pending ∧
    (completeFetch ⟨⟨3, 2, 5⟩, "moon"⟩ .notFound sC8).tileImages = [] ∧
    setHas (completeFetch ⟨⟨3, 2, 5⟩, "moon"⟩ .notFound sC8).loadingTiles
      ⟨3, 2, 5⟩ = false ∧
    completeFetch ⟨⟨3, 2, 5⟩, "moon"⟩ .notFound sC8 =
      completeFetch ⟨⟨3, 2, 5⟩, "moon"⟩ .transportError sC8 ∧
    shouldFetch (completeFetch ⟨⟨3, 2, 5⟩, "moon"⟩ .notFound sC8)
      ⟨3, 2, 5⟩ = true := by
  have h := claim8_fetch_failure sC8 ⟨⟨3, 2, 5⟩, "moon"⟩ (by decide)
  exact ⟨by decide, h.1, h.2.1, h.2.2.1, h.2.2.2.2 (by decide)⟩

/-! ### Claim C2: the (absent) stale-fetch guard -/

/-- Claim C2, amended.  A successful completion stores the image
unconditionally under the key captured at issue time — `loadVisibleTiles`
performs no comparison against the currently active zoom — so a fetch
resolving after a zoom change adds a cache entry whose `key.zoom` is the
old zoom (see `claim2_counterexample`).  While the active zoom differs
from the zoom in that stale key, the entry is not requested and not
drawn, because every key a visibility pass produces carries the active
zoom; but the entry is not discarded either, and it is served again if
the zoom returns to the zoom in its key without an invalidation — the
reset operation does exactly that (also in `claim2_counterexample`). -/
theorem claim2_no_stale_guard (s s2 : ViewerState) (pf : PendingFetch)
    (img : Img) (k : TileKey)
    (_hpf : pf ∈ s.pending) (hk : k.zoom ≠ s2.zoom) :
    mapHas (completeFetch pf (.success img) s).tileImages pf.key = true ∧
    k ∉ visibleOf s2 := by
  refine ⟨?_, fun hmem => hk (mem_visibleOf_zoom hmem)⟩
  have hself : mapHas (mapSet s.tileImages pf.key img) pf.key = true :=
    mapHas_mapSet_self _ _ _
  exact hself

/-- Witness for `claim2_no_stale_guard` at the trace state `sMid`: the
stale completion installs (1,0,0), and while the zoom is 2 that key is
not in the visible set. -/
theorem claim2_witness :
    (⟨kZ1, "moon"⟩ : PendingFetch) ∈ sMid.pending ∧
    kZ1.zoom ≠ sMid.zoom ∧
    mapHas (completeFetch ⟨kZ1, "moon"⟩ (.success 7) sMid).tileImages
      kZ1 = true ∧
    kZ1 ∉ visibleOf sMid := by
  have h := claim2_no_stale_guard sMid sMid ⟨kZ1, "moon"⟩ 7 kZ1
    (by decide) (by decide)
  exact ⟨by decide, by decide, h.1, h.2⟩

/-- Counterexample to claim C2 as stated: no stale-fetch guard exists.
In the reachable state `sStale` the fetch for (1,0,0) — issued at zoom 1
— has resolved after the zoom changed to 2, and the cache did gain the
entry, whose `key.zoom` differs from the active zoom.  Nor is the entry
gone for good: one reset later (also a reachable state, and reset clears
nothing) the zoom is 1 again, (1,0,0) is in the visible set, and the
stale-inserted entry is the one the render pass serves. -/
theorem claim2_counterexample :
    Reachable (init 1024 768) sStale ∧
    sStale.zoom = 2 ∧
    mapHas sStale.tileImages ⟨1, 0, 0⟩ = true ∧
    (⟨1, 0, 0⟩ : TileKey).zoom ≠ sStale.zoom ∧
    Reachable (init 1024 768) (resetView sStale) ∧
    (⟨1, 0, 0⟩ : TileKey) ∈ visibleOf (resetView sStale) ∧
    mapHas (resetView sStale).tileImages ⟨1, 0, 0⟩ = true := by
  refine ⟨reach_sStale, rfl, by decide, by decide, ?_, ?_, by decide⟩
  · exact .tail reach_sStale (Step.reset sStale)
  · rw [vis_reset_sStale]
    decide

/-! ### Claim C1: at most one outstanding fetch per key -/

/-- Claim C1, amended.  While a key is in the in-flight set the
coordinator guard rejects it (`shouldFetch` is false), and no transition
— in particular no visible-set recomputation caused by pan events —
increases the number of outstanding requests for that key.  As stated
the claim is refuted by `claim1_counterexample`: a zoom invalidation
empties the in-flight set without cancelling the request already on the
wire, and after zooming back a fresh pass issues a duplicate. -/
theorem claim1_inflight_guard (s t : ViewerState) (e : PendingFetch)
    (hk : e.key ∈ s.loadingTiles) (hstep : Step s t) :
    shouldFetch s e.key = false ∧
    t.pending.count e ≤ s.pending.count e := by
  constructor
  · simp [shouldFetch, setHas, hk]
  · cases hstep with
    | selectProduct p => exact le_refl _
    | productsLoaded ps => cases ps <;> exact le_refl _
    | mouseDown e2 => exact le_refl _
    | mouseMove e2 =>
        unfold handleMouseMove
        split <;> exact le_refl _
    | mouseUp => exact le_refl _
    | zoomTo t2 => rw [setZoom_pending]
    | reset => exact le_refl _
    | resize w2 h2 => exact le_refl _
    | issue k p hp hf =>
        have hnotin : k ∉ s.loadingTiles := by
          have h2 := (shouldFetch_eq_true hf).2
          simpa [setHas] using h2
        have hne : (⟨k, p.id⟩ : PendingFetch) ≠ e := by
          intro hEq
          apply hnotin
          have hkey : e.key = k := by rw [← hEq]
          rwa [hkey] at hk
        have happ : (markInFlight k p.id s).pending =
            s.pending ++ [⟨k, p.id⟩] := rfl
        rw [happ, List.count_append]
        simp [List.count_singleton', hne]
    | complete pf o hpf =>
        cases o <;> exact (List.erase_sublist pf s.pending).count_le e

/-- Witness for `claim1_inflight_guard`: with (1,0,0) in flight at
`sInfl1`, the guard is false and a mouse-up step does not increase the
outstanding count. -/
theorem claim1_witness :
    kZ1 ∈ sInfl1.loadingTiles ∧
    shouldFetch sInfl1 kZ1 = false ∧
    (handleMouseUp sInfl1).pending.count ⟨kZ1, "moon"⟩ ≤
      sInfl1.pending.count ⟨kZ1, "moon"⟩ := by
  have h := claim1_inflight_guard sInfl1 (handleMouseUp sInfl1)
    ⟨kZ1, "moon"⟩ (by decide) (Step.mouseUp sInfl1)
  exact ⟨by decide, h.1, h.2⟩

/-- Counterexample to claim C1 as stated: in the reachable state
`sInfl1b` two requests for the same (product, key) pair — ("moon",
(1,0,0)) — are outstanding at the same instant.  Both issues were for
genuinely visible keys: (1,0,0) is in the visible set both at `sSel` and
at `sBack`. -/
theorem claim1_counterexample :
    Reachable (init 1024 768) sInfl1b ∧
    sInfl1b.pending.count ⟨kZ1, "moon"⟩ = 2 ∧
    kZ1 ∈ visibleOf sSel ∧ kZ1 ∈ visibleOf sBack := by
  refine ⟨reach_sInfl1b, by decide, ?_, ?_⟩
  · rw [vis_sSel]; decide
  · rw [vis_sBack]; decide

/-! ### Claim C5: invalidation policy -/

/-- Claim C5, amended.  Every effective `setZoom` and every product
change through the selector clears 100% of the cached entries and the
whole in-flight set, after which every visible key passes the fetch
guard (is re-requested by the next pass); pan-only drag events touch
neither.  As stated the claim is refuted by `claim5_counterexample`:
`resetView` (the reset button) performs a zoom change back to 1 without
clearing anything. -/
theorem claim5_invalidation (s : ViewerState) (p p2 : Product) (t : ℤ)
    (e : V2) (k : TileKey)
    (hp : s.currentProduct = some p) (ht : clampZoom p t ≠ s.zoom) :
    (setZoom t s).tileImages = [] ∧
    (setZoom t s).loadingTiles = [] ∧
    (k ∈ visibleOf (setZoom t s) → shouldFetch (setZoom t s) k = true) ∧
    (handleProductChange p2 s).tileImages = [] ∧
    (handleProductChange p2 s).loadingTiles = [] ∧
    (k ∈ visibleOf (handleProductChange p2 s) →
      shouldFetch (handleProductChange p2 s) k = true) ∧
    (handleMouseMove e s).tileImages = s.tileImages ∧
    (handleMouseMove e s).loadingTiles = s.loadingTiles ∧
    (handleMouseDown e s).tileImages = s.tileImages ∧
    (handleMouseDown e s).loadingTiles = s.loadingTiles := by
  rw [setZoom_eq hp, if_neg ht]
  refine ⟨rfl, rfl, fun _ => rfl, rfl, rfl, fun _ => rfl, ?_, ?_, rfl, rfl⟩ <;>
    (unfold handleMouseMove; split <;> rfl)

/-- Witness for `claim5_invalidation` at `sSel` with the effective zoom
change to 2. -/
theorem claim5_witness :
    sSel.currentProduct = some pMoon ∧
    clampZoom pMoon 2 ≠ sSel.zoom ∧
    (setZoom 2 sSel).tileImages = [] ∧
    (setZoom 2 sSel).loadingTiles = [] ∧
    (handleProductChange pMoon sSel).tileImages = [] ∧
    (handleMouseMove ⟨0, 0⟩ sSel).tileImages = sSel.tileImages := by
  have h := claim5_invalidation sSel pMoon pMoon 2 ⟨0, 0⟩ kZ2 rfl (by decide)
  exact ⟨rfl, by decide, h.1, h.2.1, h.2.2.2.1, h.2.2.2.2.2.2.1⟩

/-- Counterexample to claim C5 as stated: pressing reset in the
reachable state `sLoaded` (zoom 2, one cached tile) is an effective zoom
change — zoom goes from 2 to 1 — after which the cached zoom-2 entry is
still present: not every effective zoom change clears the cache. -/
theorem claim5_counterexample :
    Reachable (init 1024 768) sLoaded ∧
    sLoaded.zoom = 2 ∧
    Step sLoaded (resetView sLoaded) ∧
    (resetView sLoaded).zoom = 1 ∧
    (resetView sLoaded).tileImages = [(kZ2, 5)] ∧
    (resetView sLoaded).tileImages ≠ [] :=
  ⟨reach_sLoaded, rfl, Step.reset sLoaded, rfl, rfl, by decide⟩

/-- Counterexample to claim C10: after the reachable state `sLoaded`,
the reset operation leaves the cached entry in place (no cache clear),
and the zoom-1 tile (0,0) it displays is not centered: its rendered
center is at x = 640 while the viewport center is at x = 512. -/
theorem claim10_counterexample :
    Reachable (init 1024 768) sLoaded ∧
    (resetView sLoaded).tileImages = [(kZ2, 5)] ∧
    (resetView sLoaded).zoom = 1 ∧
    (tileScreenRect ⟨1, 0, 0⟩ (resetView sLoaded).pan).x +
      (tileScreenRect ⟨1, 0, 0⟩ (resetView sLoaded).pan).size / 2 = 640 ∧
    sLoaded.w / 2 = 512 ∧
    (640 : ℚ) ≠ 512 := by
  refine ⟨reach_sLoaded, rfl, rfl, ?_, ?_, by norm_num⟩
  · norm_num [tileScreenRect, tileScale, TILE_SIZE, resetView,
      show sLoaded.w = 1024 from rfl, show sLoaded.h = 768 from rfl]
  · norm_num [show sLoaded.w = 1024 from rfl]

end CosmicZoom
